import Mathlib

/-!
Shallow embedding of the product-catalog backend
(`src/server/controllers/productController.js`) of the shoe-store
repository, together with proofs of the specification claims about it.

The controller code is embedded function by function.  The MongoDB data
store and the Mongoose `Product` model are not part of the repository's
sources; the store operations the controller invokes (`find` with a filter
/ sort / skip / limit chain, `findById`, `findByIdAndUpdate` with `$set`,
`$inc` and `$push`) are modelled from the spec, which treats the store as
an external collaborator providing per-document atomic updates.  Machine
numbers are modelled as `Int` (the spec's prices and stock counts are
integers); JavaScript's `NaN` is modelled explicitly where the controller
can produce it (`Number`/`parseInt` on malformed input).
-/

namespace ShoeStore

/-- A JavaScript number restricted to integer values, plus `NaN`.  The
controller only ever produces numbers via `Number(...)` and
`parseInt(..., 10)` on query parameters, and via integer arithmetic, so
fractional values do not arise in the model. -/
inductive JsNum where
  | nan : JsNum
  | val : Int → JsNum
deriving DecidableEq, Repr

/-- A JavaScript request-body value as the controller sees it: absent
(`undefined`), a number, or a string. -/
inductive JsVal where
  | undef : JsVal
  | num : Int → JsVal
  | str : String → JsVal
deriving DecidableEq, Repr

/-- JavaScript truthiness of a body value: `undefined`, `0` and `""` are
falsy, everything else is truthy. -/
def JsVal.truthy : JsVal → Bool
  | .undef => false
  | .num n => n != 0
  | .str s => s != ""

/-- JavaScript truthiness of an optional query-string parameter: absent
(`undefined`) and the empty string are falsy. -/
def truthyS : Option String → Bool
  | none => false
  | some s => s != ""

/-- Numeric value of a list of decimal digit characters. -/
def digitsToNat (l : List Char) : Nat :=
  l.foldl (fun a c => 10 * a + (c.toNat - '0'.toNat)) 0

/-- JavaScript whitespace as it occurs in query strings. -/
def isJsWhitespace (c : Char) : Bool :=
  c == ' ' || c == '\t' || c == '\n' || c == '\r'

/-- Whitespace trimming on the character list of a string. -/
def charTrim (l : List Char) : List Char :=
  ((l.dropWhile isJsWhitespace).reverse.dropWhile isJsWhitespace).reverse

/-- Model of JavaScript `Number(s)` for a string, restricted to
optionally-signed decimal integer numerals: surrounding whitespace is
ignored, the empty (or all-whitespace) string converts to `0`, a pure
digit string (with optional sign) converts to its value, and every other
string converts to `NaN`.  Fractional, hexadecimal and exponent numerals
are outside the model; no claim exercises them. -/
def jsNumber (s : String) : JsNum :=
  match charTrim s.toList with
  | [] => .val 0
  | '-' :: rest =>
      if rest ≠ [] ∧ rest.all Char.isDigit then .val (-(digitsToNat rest : Int)) else .nan
  | '+' :: rest =>
      if rest ≠ [] ∧ rest.all Char.isDigit then .val (digitsToNat rest : Int) else .nan
  | c :: rest =>
      if (c :: rest).all Char.isDigit then .val (digitsToNat (c :: rest) : Int) else .nan

/-- Model of JavaScript `parseInt(s, 10)`: leading whitespace is skipped,
an optional sign is read, then the longest leading run of decimal digits;
if that run is empty the result is `NaN`. -/
def jsParseInt (s : String) : JsNum :=
  match charTrim s.toList with
  | '-' :: rest =>
      let ds := rest.takeWhile Char.isDigit
      if ds = [] then .nan else .val (-(digitsToNat ds : Int))
  | '+' :: rest =>
      let ds := rest.takeWhile Char.isDigit
      if ds = [] then .nan else .val (digitsToNat ds : Int)
  | cs =>
      let ds := cs.takeWhile Char.isDigit
      if ds = [] then .nan else .val (digitsToNat ds : Int)

/-- Model of the JavaScript idiom `x || d` for a number `x` and integer
default `d`: `NaN` and `0` are falsy and yield the default. -/
def JsNum.orDefault : JsNum → Int → Int
  | .nan, d => d
  | .val n, d => if n = 0 then d else n

/-- A size entry of a product color: a size label and its integer stock
count. -/
structure SizeEntry where
  size : String
  stock : Int
deriving DecidableEq, Repr

/-- A color entry of a product: a color name and its ordered sizes.  The
hex code plays no role in the controller and is omitted. -/
structure ColorEntry where
  name : String
  sizes : List SizeEntry
deriving DecidableEq, Repr

/-- A review of a product.  `user` is the review author's identity in its
string form (the controller compares `r.user.toString()` with
`req.user._id.toString()`); `rating` is the value the controller stored
via `Number(rating)`; `comment` is stored as received from the request
body. -/
structure Review where
  user : String
  userName : String
  rating : JsNum
  comment : JsVal
  createdAt : Int
deriving DecidableEq, Repr

/-- A product document.  Timestamps are modelled as integers. -/
structure Product where
  id : Nat
  name : String
  brand : String
  category : String
  gender : String
  price : Int
  description : String
  isActive : Bool
  isFeatured : Bool
  averageRating : Int
  createdAt : Int
  colors : List ColorEntry
  reviews : List Review
deriving DecidableEq, Repr

/-- Modelled from the spec: the data store's collection is an ordered list
of product documents with unique ids. -/
abbrev Db := List Product

/-- Modelled from the spec: the store's `findById`, returning the (first)
document with the given id. -/
def findById (db : Db) (id : Nat) : Option Product :=
  db.find? (fun p => p.id == id)

/-- Modelled from the spec: the store's `findByIdAndUpdate` with
`new: true` — atomically applies `f` to the document with the given id
and returns the updated document, or `none` (and the unchanged
collection) when no document has that id. -/
def findByIdAndUpdate (db : Db) (id : Nat) (f : Product → Product) :
    Option Product × Db :=
  match db.find? (fun p => p.id == id) with
  | none => (none, db)
  | some p => (some (f p), db.map (fun q => if q.id == id then f q else q))

/-- Applies `f` to the element at index `i`, leaving the list unchanged
when the index is out of range (the update path of a `$inc` with a
positional index). -/
def modifyIdx {α : Type} (f : α → α) : Nat → List α → List α
  | _, [] => []
  | 0, a :: as => f a :: as
  | n + 1, a :: as => a :: modifyIdx f n as

/-- JavaScript's `Array.prototype.findIndex` fused with the subsequent
indexed access the controller performs: the index of the first element
satisfying `p` together with that element, or `none` (JS: `-1`) when
there is none. -/
def findIdxElem {α : Type} (p : α → Bool) : List α → Option (Nat × α)
  | [] => none
  | a :: as =>
      if p a then some (0, a)
      else (findIdxElem p as).map (fun x => (x.1 + 1, x.2))

/-! ## Catalog query component (`getProducts`) -/

/-- The optional query-string parameters of `GET /api/products`, exactly
the fields destructured from `req.query` in `getProducts`.  `none` is an
absent parameter (`undefined`). -/
structure QueryParams where
  search : Option String
  brand : Option String
  category : Option String
  minPrice : Option String
  maxPrice : Option String
  gender : Option String
  sortBy : Option String
  order : Option String
  page : Option String
  limit : Option String
  featured : Option String
deriving DecidableEq, Repr

/-- The absent-everything parameter set. -/
def QueryParams.empty : QueryParams :=
  ⟨none, none, none, none, none, none, none, none, none, none, none⟩

/-- The `price` sub-object of the filter built by `getProducts`:
`$gte` / `$lte` bounds as the controller computed them via `Number(...)`
(so a bound can be `NaN`). -/
structure PriceFilter where
  gte : Option JsNum
  lte : Option JsNum
deriving DecidableEq, Repr

/-- The filter object `getProducts` passes to the store: always
`isActive: true`, plus the conditionally-added `$text`, `brand`,
`category`, `gender`, `price` and `isFeatured` keys. -/
structure MongoQuery where
  isActive : Bool
  search : Option String
  brand : Option String
  category : Option String
  gender : Option String
  price : Option PriceFilter
  isFeatured : Option Bool
deriving DecidableEq, Repr

/-- The filter object built in `getProducts` (lines 26–55 of the
controller): each key is added only when the corresponding parameter is
truthy; `featured` adds `isFeatured: true` only on the exact string
`"true"`. -/
def buildQuery (qp : QueryParams) : MongoQuery where
  isActive := true
  search := if truthyS qp.search then qp.search else none
  brand := if truthyS qp.brand then qp.brand else none
  category := if truthyS qp.category then qp.category else none
  gender := if truthyS qp.gender then qp.gender else none
  price :=
    if truthyS qp.minPrice || truthyS qp.maxPrice then
      some { gte := if truthyS qp.minPrice then some (jsNumber (qp.minPrice.getD "")) else none
             lte := if truthyS qp.maxPrice then some (jsNumber (qp.maxPrice.getD "")) else none }
    else none
  isFeatured := if qp.featured == some "true" then some true else none

/-- Modelled from the spec: the store's `$gte` comparison of a numeric
document field against a query bound, under MongoDB's BSON number
ordering in which `NaN` compares below every number (so every numeric
price satisfies `$gte: NaN`). -/
def bsonGe (p : Int) : JsNum → Bool
  | .nan => true
  | .val n => n ≤ p

/-- Modelled from the spec: the store's `$lte` comparison of a numeric
document field against a query bound, under MongoDB's BSON number
ordering in which `NaN` compares below every number (so no numeric price
satisfies `$lte: NaN`). -/
def bsonLe (p : Int) : JsNum → Bool
  | .nan => false
  | .val n => p ≤ n

/-- Modelled from the spec: whether a document matches the filter object.
Every supplied key must match (logical AND); the `$text` key consults the
external text index, passed in as the predicate `tmatch`. -/
def matchesQuery (tmatch : String → Product → Bool) (q : MongoQuery)
    (p : Product) : Bool :=
  (p.isActive == q.isActive) &&
  (match q.search with | none => true | some s => tmatch s p) &&
  (match q.brand with | none => true | some b => p.brand == b) &&
  (match q.category with | none => true | some c => p.category == c) &&
  (match q.gender with | none => true | some g => p.gender == g) &&
  (match q.price with
   | none => true
   | some pf =>
       (match pf.gte with | none => true | some b => bsonGe p.price b) &&
       (match pf.lte with | none => true | some b => bsonLe p.price b)) &&
  (match q.isFeatured with | none => true | some f => p.isFeatured == f)

/-- A sort specification as `getProducts` builds it: a list of keys in
object-insertion order, each with a direction (`1` ascending, `-1`
descending).  The relevance meta-key `$text score` is represented by the
reserved key name `"$textScore"` with direction `-1` (MongoDB sorts by
text score in descending relevance order). -/
abbrev SortSpec := List (String × Int)

/-- The sort object built in `getProducts` (lines 57–69): the requested
field first with the requested direction (`desc` ⇒ `-1`, anything else ⇒
`1`), then the text-relevance score when a search string is present;
without a sort field, newest first. -/
def buildSortSpec (qp : QueryParams) : SortSpec :=
  if truthyS qp.sortBy then
    let sortOrder : Int := if qp.order == some "desc" then -1 else 1
    (qp.sortBy.getD "", sortOrder) ::
      (if truthyS qp.search then [("$textScore", -1)] else [])
  else
    [("createdAt", -1)]

/-- Modelled from the spec: the numeric sort-key value of a document for
a key name.  `"$textScore"` is the external text index's relevance score
(`tscore`); unknown keys compare equal on every document (MongoDB treats
a field absent from all documents as `null` everywhere). -/
def fieldVal (tscore : Product → Int) (k : String) (p : Product) : Int :=
  if k == "$textScore" then tscore p
  else if k == "price" then p.price
  else if k == "createdAt" then p.createdAt
  else if k == "averageRating" then p.averageRating
  else 0

/-- Modelled from the spec: the store's lexicographic document order for
a sort specification — compare on the first key, in its direction, and
fall through to later keys on ties. -/
def specLe (tscore : Product → Int) : SortSpec → Product → Product → Bool
  | [], _, _ => true
  | (k, d) :: rest, a, b =>
      let va := fieldVal tscore k a
      let vb := fieldVal tscore k b
      if va = vb then specLe tscore rest a b
      else if 0 ≤ d then decide (va ≤ vb) else decide (vb ≤ va)

/-- The 1-based page number: `parseInt(page, 10) || 1`.  An absent
parameter stringifies to a non-numeral, hence `NaN`, hence the default. -/
def pageNumOf (page : Option String) : Int :=
  (jsParseInt (page.getD "")).orDefault 1

/-- The page size: `parseInt(limit, 10) || 12`. -/
def limitNumOf (limit : Option String) : Int :=
  (jsParseInt (limit.getD "")).orDefault 12

/-- JavaScript's `Math.ceil(t / l)` for integers with `l ≠ 0` (the
controller divides by `limitNum`, which is never `0` because `0` is falsy
and replaced by the default `12`). -/
def mathCeilDiv (t l : Int) : Int :=
  if 0 < l then (t + l - 1) / l
  else if l < 0 then -(t / (-l))
  else 0

/-- The documents matching the filter, in collection order. -/
def catalogMatches (tmatch : String → Product → Bool) (db : Db)
    (qp : QueryParams) : List Product :=
  db.filter (matchesQuery tmatch (buildQuery qp))

/-- The document order induced by a sort specification, as a relation. -/
def specLeR (tscore : Product → Int) (spec : SortSpec) :
    Product → Product → Prop :=
  fun a b => specLe tscore spec a b = true

instance (tscore : Product → Int) (spec : SortSpec) :
    DecidableRel (specLeR tscore spec) :=
  fun a b => instDecidableEqBool (specLe tscore spec a b) true

/-- Modelled from the spec: `Product.find(query).sort(sortOptions)` — the
matching documents in the store's sort order (modelled as a stable
sort by the lexicographic key order `specLe`). -/
def catalogSorted (tmatch : String → Product → Bool)
    (tscore : Product → Int) (db : Db) (qp : QueryParams) : List Product :=
  (catalogMatches tmatch db qp).insertionSort
    (specLeR tscore (buildSortSpec qp))

/-- The response body of `getProducts`. -/
structure ListResult where
  success : Bool
  count : Nat
  total : Int
  page : Int
  pages : Int
  data : List Product
deriving DecidableEq, Repr

/-- The embedding of `getProducts`: build the filter and sort objects,
compute `pageNum`, `limitNum` and `skip`, run the store query with
`.skip(skip).limit(limitNum)`, count the matching documents, and
assemble the response.  The external text index enters as the match
predicate `tmatch` and the relevance score `tscore`. -/
def getProducts (tmatch : String → Product → Bool)
    (tscore : Product → Int) (db : Db) (qp : QueryParams) : ListResult :=
  let pageNum := pageNumOf qp.page
  let limitNum := limitNumOf qp.limit
  let skip := (pageNum - 1) * limitNum
  let sorted := catalogSorted tmatch tscore db qp
  let data := (sorted.drop skip.toNat).take limitNum.toNat
  let total : Int := (catalogMatches tmatch db qp).length
  { success := true
    count := data.length
    total := total
    page := pageNum
    pages := mathCeilDiv total limitNum
    data := data }

/-! ## Mutation component -/

/-- The response envelope of a mutation handler: HTTP status, success
flag, message, and the returned document when there is one. -/
structure MutResponse where
  status : Nat
  success : Bool
  message : String
  data : Option Product
deriving DecidableEq, Repr

/-- A not-found response (`res.status(404).json({success: false, message})`). -/
def notFoundResp (msg : String) : MutResponse :=
  { status := 404, success := false, message := msg, data := none }

/-- A client-error response (`res.status(400).json({success: false, message})`). -/
def badReqResp (msg : String) : MutResponse :=
  { status := 400, success := false, message := msg, data := none }

/-- A partial-update payload for `updateProduct`: each field is either
absent from the request body or supplies a new value.  Embedded colors
and reviews can also be replaced wholesale by a `$set`. -/
structure ProductPatch where
  name : Option String
  brand : Option String
  category : Option String
  gender : Option String
  price : Option Int
  description : Option String
  isActive : Option Bool
  isFeatured : Option Bool
  colors : Option (List ColorEntry)
  reviews : Option (List Review)
deriving DecidableEq, Repr

/-- The patch that supplies no field. -/
def ProductPatch.empty : ProductPatch :=
  ⟨none, none, none, none, none, none, none, none, none, none⟩

/-- Modelled from the spec: the store's `$set` field-level merge — every
supplied field is overwritten, every absent field keeps its value. -/
def applyPatch (u : ProductPatch) (p : Product) : Product :=
  { p with
    name := u.name.getD p.name
    brand := u.brand.getD p.brand
    category := u.category.getD p.category
    gender := u.gender.getD p.gender
    price := u.price.getD p.price
    description := u.description.getD p.description
    isActive := u.isActive.getD p.isActive
    isFeatured := u.isFeatured.getD p.isFeatured
    colors := u.colors.getD p.colors
    reviews := u.reviews.getD p.reviews }

/-- The embedding of `updateProduct`: `findByIdAndUpdate(id, {$set:
updates}, {new: true, runValidators: true})`, answering 404 when no
document has the id.  The store-layer validator is external and enters as
the predicate `valid`, run on the merged document; a validation failure
is thrown by the store and caught as a 400 response, leaving the
collection unchanged. -/
def updateProduct (valid : Product → Bool) (db : Db) (id : Nat)
    (u : ProductPatch) : MutResponse × Db :=
  match findById db id with
  | none => (notFoundResp "Product not found", db)
  | some p =>
      if valid (applyPatch u p) then
        match findByIdAndUpdate db id (applyPatch u) with
        | (product?, db2) =>
            ({ status := 200, success := true,
               message := "Product updated successfully", data := product? }, db2)
      else (badReqResp "Error updating product", db)

/-- The read phase of `updateStock` (lines 208–232): fetch the product,
then `findIndex` the color by name and the size by label within it,
reporting which lookup failed. -/
inductive StockRead where
  | noProduct : StockRead
  | noColor : StockRead
  | noSize : StockRead
  | found : Nat → Nat → StockRead
deriving DecidableEq, Repr

/-- The read phase of `updateStock`, computed on a snapshot of the
collection: the color index and size index of the requested pair, or the
first lookup that failed. -/
def updateStockRead (db : Db) (id : Nat) (colorName size : String) :
    StockRead :=
  match findById db id with
  | none => .noProduct
  | some product =>
      match findIdxElem (fun c => c.name == colorName) product.colors with
      | none => .noColor
      | some (colorIndex, color) =>
          match findIdxElem (fun s => s.size == size) color.sizes with
          | none => .noSize
          | some (sizeIndex, _) => .found colorIndex sizeIndex

/-- Adding a signed quantity to one size entry's stock count. -/
def sizeInc (quantity : Int) (s : SizeEntry) : SizeEntry :=
  { s with stock := s.stock + quantity }

/-- Adding a signed quantity to the stock count at size index `si` of a
color entry. -/
def colorInc (si : Nat) (quantity : Int) (c : ColorEntry) : ColorEntry :=
  { c with sizes := modifyIdx (sizeInc quantity) si c.sizes }

/-- The `$inc` update document of `updateStock`: add `quantity` to
`colors.<ci>.sizes.<si>.stock` of one product document. -/
def incStockAt (ci si : Nat) (quantity : Int) (p : Product) : Product :=
  { p with colors := modifyIdx (colorInc si quantity) ci p.colors }

/-- The write phase of `updateStock`: the store's atomic
`findByIdAndUpdate(id, {$inc: {path: quantity}}, {new: true})`. -/
def stockWrite (id : Nat) (ci si : Nat) (quantity : Int) (db : Db) :
    Option Product × Db :=
  findByIdAndUpdate db id (incStockAt ci si quantity)

/-- The embedding of `updateStock` (lines 204–254): read phase on the
current collection, targeted 404s for a missing product, color or size,
then the atomic `$inc` write. -/
def updateStock (db : Db) (id : Nat) (colorName size : String)
    (quantity : Int) : MutResponse × Db :=
  match updateStockRead db id colorName size with
  | .noProduct => (notFoundResp "Product not found", db)
  | .noColor => (notFoundResp "Color not found", db)
  | .noSize => (notFoundResp "Size not found", db)
  | .found colorIndex sizeIndex =>
      match stockWrite id colorIndex sizeIndex quantity db with
      | (product?, db2) =>
          ({ status := 200, success := true,
             message := "Stock updated successfully", data := product? }, db2)

/-- The stock count of the first size with the given label inside the
first color with the given name — the pair `updateStock` targets. -/
def getStock (p : Product) (colorName size : String) : Option Int :=
  (p.colors.find? (fun c => c.name == colorName)).bind fun c =>
    (c.sizes.find? (fun s => s.size == size)).map (fun s => s.stock)

/-- The stock count of a color/size pair of the product with the given
id. -/
def getStockDb (db : Db) (id : Nat) (colorName size : String) : Option Int :=
  (findById db id).bind fun p => getStock p colorName size

/-- Number conversion the controller applies to the submitted rating
(`Number(rating)`). -/
def jsToNumber : JsVal → JsNum
  | .undef => .nan
  | .num n => .val n
  | .str s => jsNumber s

/-- The write phase of `addReview`: the store's atomic
`findByIdAndUpdate(productId, {$push: {reviews: r}}, {new: true})`. -/
def pushReviewOp (pid : Nat) (r : Review) (db : Db) : Option Product × Db :=
  findByIdAndUpdate db pid (fun p => { p with reviews := p.reviews ++ [r] })

/-- The review document `addReview` pushes: the authenticated user's id
and display name, `Number(rating)`, the raw comment, and the
server-assigned timestamp `new Date()` (the parameter `now`). -/
def mkReview (now : Int) (uid uname : String) (rating comment : JsVal) :
    Review :=
  { user := uid, userName := uname, rating := jsToNumber rating,
    comment := comment, createdAt := now }

/-- The embedding of `addReview` (lines 293–355): reject a falsy rating
or comment before any store access, 404 a missing product, reject a
duplicate review by the same user identity, and otherwise `$push` the new
review. -/
def addReview (now : Int) (db : Db) (pid : Nat) (uid uname : String)
    (rating comment : JsVal) : MutResponse × Db :=
  if !rating.truthy || !comment.truthy then
    (badReqResp "Please provide rating and comment", db)
  else
    match findById db pid with
    | none => (notFoundResp "Product not found", db)
    | some product =>
        match product.reviews.find? (fun r => r.user == uid) with
        | some _ => (badReqResp "You have already reviewed this product", db)
        | none =>
            match pushReviewOp pid (mkReview now uid uname rating comment) db with
            | (product?, db2) =>
                ({ status := 201, success := true,
                   message := "Review added successfully", data := product? }, db2)

/-! ## Concrete inputs used by the witnesses -/

/-- A concrete product used by the witnesses: the spec scenario's product
with color `Red`, size `9`, stock `10`, and one existing review by user
`u1`. -/
def demoProduct : Product :=
  { id := 1, name := "Air Max", brand := "Nike", category := "running",
    gender := "men", price := 50, description := "demo",
    isActive := true, isFeatured := false, averageRating := 4,
    createdAt := 100,
    colors := [{ name := "Red", sizes := [{ size := "9", stock := 10 }] }],
    reviews := [{ user := "u1", userName := "Alice", rating := .val 5,
                  comment := .str "nice", createdAt := 50 }] }

/-- A concrete partial update supplying only a new price. -/
def demoPatch : ProductPatch := { ProductPatch.empty with price := some 60 }

/-- The collection used by the C8 witness: three active products with
prices 50, 30, 30 and distinct relevance scores (modelled by
`averageRating`). -/
def sortWitnessDb : Db :=
  [demoProduct,
   { demoProduct with id := 2, price := 30, averageRating := 9 },
   { demoProduct with id := 3, price := 30, averageRating := 2 }]

/-- The parameters used by the C8 witness: ascending price sort together
with a text search. -/
def sortWitnessQp : QueryParams :=
  { QueryParams.empty with sortBy := some "price", search := some "shoe" }

/-- A fresh review by user `u2`, used by the C9 witness. -/
def demoReview1 : Review :=
  { user := "u2", userName := "Bob", rating := .val 4,
    comment := .str "good", createdAt := 7 }

/-- A fresh review by user `u3`, used by the C9 witness. -/
def demoReview2 : Review :=
  { user := "u3", userName := "Cara", rating := .val 3,
    comment := .str "fine", createdAt := 8 }

/-! ## Helper lemmas about the store primitives -/

theorem find?_eq_findIdxElem_snd {α : Type} (p : α → Bool) (l : List α) :
    l.find? p = (findIdxElem p l).map (fun x => x.2) := by
  induction l with
  | nil => rfl
  | cons a as ih =>
      by_cases h : p a
      · simp [List.find?_cons, h, findIdxElem]
      · simp [List.find?_cons, h, findIdxElem, ih, Option.map_map]
        rfl

theorem find?_modifyIdx {α : Type} (p : α → Bool) (f : α → α)
    (hf : ∀ x, p (f x) = p x) :
    ∀ (l : List α) (i : Nat) (a : α), findIdxElem p l = some (i, a) →
      (modifyIdx f i l).find? p = some (f a) := by
  intro l
  induction l with
  | nil => intro i a h; simp [findIdxElem] at h
  | cons x xs ih =>
      intro i a h
      by_cases hx : p x
      · simp [findIdxElem, hx] at h
        obtain ⟨hi, ha⟩ := h
        subst hi; subst ha
        simp [modifyIdx, List.find?_cons, hf, hx]
      · simp only [findIdxElem, hx, Bool.false_eq_true, not_false_iff,
          ite_false, Option.map_eq_some'] at h
        obtain ⟨⟨j, b⟩, hjb, hshift⟩ := h
        cases hshift
        simp only [modifyIdx, List.find?_cons, hx]
        exact ih j b hjb

theorem findIdxElem_modifyIdx {α : Type} (p : α → Bool) (f : α → α)
    (hf : ∀ x, p (f x) = p x) :
    ∀ (l : List α) (i : Nat) (a : α), findIdxElem p l = some (i, a) →
      findIdxElem p (modifyIdx f i l) = some (i, f a) := by
  intro l
  induction l with
  | nil => intro i a h; simp [findIdxElem] at h
  | cons x xs ih =>
      intro i a h
      by_cases hx : p x
      · simp [findIdxElem, hx] at h
        obtain ⟨hi, ha⟩ := h
        subst hi; subst ha
        simp [modifyIdx, findIdxElem, hf, hx]
      · simp only [findIdxElem, hx, Bool.false_eq_true, not_false_iff,
          ite_false, Option.map_eq_some'] at h
        obtain ⟨⟨j, b⟩, hjb, hshift⟩ := h
        cases hshift
        simp only [modifyIdx, findIdxElem, hx, Bool.false_eq_true, not_false_iff,
          ite_false, ih j b hjb, Option.map_some']

theorem modifyIdx_modifyIdx {α : Type} (f g : α → α) (i : Nat) (l : List α) :
    modifyIdx f i (modifyIdx g i l) = modifyIdx (fun x => f (g x)) i l := by
  induction l generalizing i with
  | nil => cases i <;> rfl
  | cons a as ih =>
      cases i with
      | zero => rfl
      | succ n => simpa [modifyIdx] using ih n

theorem findById_mapUpdate (db : Db) (id : Nat) (f : Product → Product)
    (hf : ∀ q, (f q).id = q.id) :
    findById (db.map (fun q => if q.id == id then f q else q)) id =
      (findById db id).map f := by
  induction db with
  | nil => rfl
  | cons p ps ih =>
      cases hb : (p.id == id) with
      | true =>
          have hfp : ((f p).id == id) = true := by rw [hf p]; exact hb
          have hif : (if (p.id == id) = true then f p else p) = f p := by
            simp [hb]
          simp only [List.map_cons]
          rw [hif]
          simp only [findById, List.find?_cons, hfp, hb, Option.map_some']
      | false =>
          have hif : (if (p.id == id) = true then f p else p) = p := by
            simp [hb]
          simp only [List.map_cons]
          rw [hif]
          simp only [findById, List.find?_cons, hb]
          exact ih

theorem findByIdAndUpdate_of_found (db : Db) (id : Nat)
    (f : Product → Product) (p : Product) (hp : findById db id = some p) :
    findByIdAndUpdate db id f =
      (some (f p), db.map (fun q => if q.id == id then f q else q)) := by
  simp only [findByIdAndUpdate, findById] at *
  rw [hp]

/-! ## Claim C10 -/

/-- C10: a review submission whose rating or comment is falsy
(`undefined`, `0`, or the empty string) is rejected with HTTP 400 and the
message `Please provide rating and comment`, before any product lookup
(the collection is untouched and the answer does not depend on whether
the product id exists). -/
theorem addReview_requires_rating_and_comment
    (now : Int) (db : Db) (pid : Nat) (uid uname : String)
    (rating comment : JsVal)
    (h : rating.truthy = false ∨ comment.truthy = false) :
    addReview now db pid uid uname rating comment =
      (badReqResp "Please provide rating and comment", db) := by
  rcases h with h | h <;> simp [addReview, h]

/-- Witness for C10: a rating of `0` with a well-formed comment is
rejected with the validation message even on an empty collection (no
product lookup can have succeeded). -/
theorem addReview_requires_rating_and_comment_witness :
    addReview 7 [] 1 "u1" "Al" (.num 0) (.str "good") =
      (badReqResp "Please provide rating and comment", []) :=
  addReview_requires_rating_and_comment 7 [] 1 "u1" "Al" (.num 0) (.str "good")
    (Or.inl rfl)

theorem findIdxElem_eq_none {α : Type} (p : α → Bool) (l : List α)
    (h : l.find? p = none) : findIdxElem p l = none := by
  rw [find?_eq_findIdxElem_snd] at h
  cases hfe : findIdxElem p l with
  | none => rfl
  | some x => rw [hfe] at h; simp at h

theorem findIdxElem_of_find? {α : Type} (p : α → Bool) (l : List α) (a : α)
    (h : l.find? p = some a) : ∃ i, findIdxElem p l = some (i, a) := by
  rw [find?_eq_findIdxElem_snd] at h
  cases hfe : findIdxElem p l with
  | none => rw [hfe] at h; simp at h
  | some x =>
      obtain ⟨i, b⟩ := x
      rw [hfe] at h
      simp only [Option.map_some', Option.some.injEq] at h
      subst h
      exact ⟨i, rfl⟩

theorem mathCeilDiv_spec (t l : Int) (hl : 0 < l) :
    t ≤ l * mathCeilDiv t l ∧ l * mathCeilDiv t l < t + l := by
  have hne : l ≠ 0 := by omega
  have hd := Int.ediv_add_emod (t + l - 1) l
  have hm1 := Int.emod_nonneg (t + l - 1) hne
  have hm2 := Int.emod_lt_of_pos (t + l - 1) hl
  unfold mathCeilDiv
  rw [if_pos hl]
  constructor <;> linarith

theorem findById_mapUpdate_some (db : Db) (id : Nat) (f : Product → Product)
    (p : Product) (hf : ∀ q, (f q).id = q.id) (hp : findById db id = some p) :
    findById (db.map (fun q => if q.id == id then f q else q)) id =
      some (f p) := by
  have hx := findById_mapUpdate db id f hf
  rw [hp] at hx
  simpa using hx

theorem getStock_incStockAt (p : Product) (colorName size : String)
    (ci si : Nat) (c : ColorEntry) (s : SizeEntry) (d : Int)
    (hci : findIdxElem (fun c0 => c0.name == colorName) p.colors = some (ci, c))
    (hsi : findIdxElem (fun s0 => s0.size == size) c.sizes = some (si, s)) :
    getStock (incStockAt ci si d p) colorName size = some (s.stock + d) := by
  have hcol := find?_modifyIdx (fun c0 => c0.name == colorName)
    (colorInc si d) (fun _ => rfl) p.colors ci c hci
  have hsz := find?_modifyIdx (fun s0 => s0.size == size)
    (sizeInc d) (fun _ => rfl) c.sizes si s hsi
  simp [getStock, incStockAt, colorInc, sizeInc, hcol, hsz]

theorem sizeInc_comm (d1 d2 : Int) (s : SizeEntry) :
    sizeInc d2 (sizeInc d1 s) = sizeInc d1 (sizeInc d2 s) := by
  simp [sizeInc, Int.add_right_comm]

theorem colorInc_comm (si : Nat) (d1 d2 : Int) (c : ColorEntry) :
    colorInc si d2 (colorInc si d1 c) = colorInc si d1 (colorInc si d2 c) := by
  simp only [colorInc, modifyIdx_modifyIdx]
  have h : (fun s => sizeInc d2 (sizeInc d1 s)) =
      (fun s => sizeInc d1 (sizeInc d2 s)) := by
    funext s; exact sizeInc_comm d1 d2 s
  rw [h]

theorem incStockAt_comm (ci si : Nat) (d1 d2 : Int) (p : Product) :
    incStockAt ci si d2 (incStockAt ci si d1 p) =
      incStockAt ci si d1 (incStockAt ci si d2 p) := by
  simp only [incStockAt, modifyIdx_modifyIdx]
  have h : (fun c => colorInc si d2 (colorInc si d1 c)) =
      (fun c => colorInc si d1 (colorInc si d2 c)) := by
    funext c; exact colorInc_comm si d1 d2 c
  rw [h]

theorem mapUpd_mapUpd (db : Db) (id : Nat) (f g : Product → Product)
    (hf : ∀ q, (f q).id = q.id) :
    (db.map (fun q => if q.id == id then f q else q)).map
        (fun q => if q.id == id then g q else q) =
      db.map (fun q => if q.id == id then g (f q) else q) := by
  rw [List.map_map]
  congr 1
  funext q
  by_cases h : (q.id == id) = true
  · simp [Function.comp, h, hf q]
  · simp [Function.comp, h]

theorem updateStock_found (db : Db) (id : Nat) (colorName size : String)
    (d : Int) (p : Product) (ci si : Nat) (c : ColorEntry) (s : SizeEntry)
    (hp : findById db id = some p)
    (hci : findIdxElem (fun c0 => c0.name == colorName) p.colors = some (ci, c))
    (hsi : findIdxElem (fun s0 => s0.size == size) c.sizes = some (si, s)) :
    updateStock db id colorName size d =
      ({ status := 200, success := true,
         message := "Stock updated successfully",
         data := some (incStockAt ci si d p) },
       db.map (fun q => if q.id == id then incStockAt ci si d q else q)) := by
  have hwrite := findByIdAndUpdate_of_found db id (incStockAt ci si d) p hp
  simp [updateStock, updateStockRead, hp, hci, hsi, stockWrite, hwrite]

/-! ## Claim C3 -/

/-- C3: for a well-formed submission on an existing product, a user who
already has a review on the product is rejected with HTTP 400 and the
conflict message, the collection unchanged; a user with no existing
review gets exactly one new review appended, carrying their identity,
display name, the converted rating, the comment, and the server-assigned
timestamp. -/
theorem addReview_one_review_per_user
    (now : Int) (db : Db) (pid : Nat) (p : Product) (uid uname : String)
    (rating comment : JsVal)
    (hp : findById db pid = some p)
    (hr : rating.truthy = true) (hc : comment.truthy = true) :
    ((∀ r0, p.reviews.find? (fun r => r.user == uid) = some r0 →
        addReview now db pid uid uname rating comment =
          (badReqResp "You have already reviewed this product", db)) ∧
     (p.reviews.find? (fun r => r.user == uid) = none →
        addReview now db pid uid uname rating comment =
          ({ status := 201, success := true,
             message := "Review added successfully",
             data := some { p with reviews :=
               p.reviews ++ [mkReview now uid uname rating comment] } },
           db.map (fun q => if q.id == pid then
             { q with reviews := q.reviews ++ [mkReview now uid uname rating comment] }
             else q)) ∧
        findById (db.map (fun q => if q.id == pid then
            { q with reviews := q.reviews ++ [mkReview now uid uname rating comment] }
            else q)) pid =
          some { p with reviews :=
            p.reviews ++ [mkReview now uid uname rating comment] })) := by
  constructor
  · intro r0 h0
    simp [addReview, hr, hc, hp, h0]
  · intro h0
    have hu := findByIdAndUpdate_of_found db pid
      (fun q => { q with reviews := q.reviews ++ [mkReview now uid uname rating comment] })
      p hp
    constructor
    · simp [addReview, hr, hc, hp, h0, pushReviewOp, hu]
    · have hx := findById_mapUpdate db pid
        (fun q => { q with reviews := q.reviews ++ [mkReview now uid uname rating comment] })
        (fun q => rfl)
      rw [hp] at hx
      simpa using hx

/-- Witness for C3: on the demo product, a second review by `u1` is
rejected with the conflict message and the collection is unchanged, while
a first review by `u2` is appended. -/
theorem addReview_one_review_per_user_witness :
    addReview 7 [demoProduct] 1 "u1" "Alice" (.num 4) (.str "again") =
      (badReqResp "You have already reviewed this product", [demoProduct]) ∧
    addReview 7 [demoProduct] 1 "u2" "Bob" (.num 4) (.str "good") =
      ({ status := 201, success := true,
         message := "Review added successfully",
         data := some { demoProduct with reviews :=
           demoProduct.reviews ++ [mkReview 7 "u2" "Bob" (.num 4) (.str "good")] } },
       [demoProduct].map (fun q => if q.id == 1 then
         { q with reviews := q.reviews ++ [mkReview 7 "u2" "Bob" (.num 4) (.str "good")] }
         else q)) :=
  ⟨(addReview_one_review_per_user 7 [demoProduct] 1 demoProduct "u1" "Alice"
      (.num 4) (.str "again") rfl rfl rfl).1 _ rfl,
   ((addReview_one_review_per_user 7 [demoProduct] 1 demoProduct "u2" "Bob"
      (.num 4) (.str "good") rfl rfl rfl).2 rfl).1⟩

/-! ## Claim C2 -/

/-- C2: on an existing product, a stock adjustment naming an absent color
answers a 404 whose message is `Color not found`; an existing color with
an absent size answers a 404 whose message is `Size not found`; in both
cases the collection (hence every stock count) is unchanged.  When both
exist, the named size's stock becomes its old value plus the signed
delta, with no lower bound. -/
theorem updateStock_spec
    (db : Db) (id : Nat) (p : Product) (colorName size : String) (q : Int)
    (hp : findById db id = some p) :
    ((p.colors.find? (fun c => c.name == colorName) = none →
        updateStock db id colorName size q =
          (notFoundResp "Color not found", db)) ∧
     (∀ c, p.colors.find? (fun c0 => c0.name == colorName) = some c →
        c.sizes.find? (fun s => s.size == size) = none →
        updateStock db id colorName size q =
          (notFoundResp "Size not found", db)) ∧
     (∀ s0, getStock p colorName size = some s0 →
        ∃ p2 db2,
          updateStock db id colorName size q =
            ({ status := 200, success := true,
               message := "Stock updated successfully", data := some p2 }, db2) ∧
          getStock p2 colorName size = some (s0 + q) ∧
          findById db2 id = some p2)) := by
  refine ⟨?_, ?_, ?_⟩
  · intro h0
    have h1 : findIdxElem (fun c => c.name == colorName) p.colors = none :=
      findIdxElem_eq_none _ _ h0
    simp [updateStock, updateStockRead, hp, h1]
  · intro c h0 h1
    obtain ⟨ci, hci⟩ := findIdxElem_of_find? _ _ _ h0
    have h2 : findIdxElem (fun s => s.size == size) c.sizes = none :=
      findIdxElem_eq_none _ _ h1
    simp [updateStock, updateStockRead, hp, hci, h2]
  · intro s0 h0
    simp only [getStock, Option.bind_eq_some, Option.map_eq_some'] at h0
    obtain ⟨c, hc, s, hs, hstock⟩ := h0
    obtain ⟨ci, hci⟩ := findIdxElem_of_find? _ _ _ hc
    obtain ⟨si, hsi⟩ := findIdxElem_of_find? _ _ _ hs
    have hwrite := findByIdAndUpdate_of_found db id (incStockAt ci si q) p hp
    refine ⟨incStockAt ci si q p,
      db.map (fun q0 => if q0.id == id then incStockAt ci si q q0 else q0),
      ?_, ?_, ?_⟩
    · simp [updateStock, updateStockRead, hp, hci, hsi, stockWrite, hwrite,
        incStockAt]
    · rw [getStock_incStockAt p colorName size ci si c s q hci hsi, hstock]
    · have hx := findById_mapUpdate db id (incStockAt ci si q) (fun q0 => rfl)
      rw [hp] at hx
      simpa using hx

/-- Witness for C2: on the demo product (Red/9, stock 10), naming the
absent color `Blue` answers `Color not found` with the collection
untouched, and adjusting Red/9 by `-3` yields stock `10 + -3 = 7`. -/
theorem updateStock_spec_witness :
    updateStock [demoProduct] 1 "Blue" "9" (-3) =
      (notFoundResp "Color not found", [demoProduct]) ∧
    (∃ p2 db2,
      updateStock [demoProduct] 1 "Red" "9" (-3) =
        ({ status := 200, success := true,
           message := "Stock updated successfully", data := some p2 }, db2) ∧
      getStock p2 "Red" "9" = some (10 + -3) ∧
      findById db2 1 = some p2) :=
  ⟨(updateStock_spec [demoProduct] 1 demoProduct "Blue" "9" (-3) rfl).1 rfl,
   (updateStock_spec [demoProduct] 1 demoProduct "Red" "9" (-3) rfl).2.2 10 rfl⟩

/-! ## Claim C7 -/

/-- C7: a partial update on a missing id answers 404 with the collection
unchanged; on an existing product with the merged document accepted by
the store validator, the response carries the merged document, and the
merge is a field-level frame: every absent field keeps its previous
value and every supplied field takes the supplied value. -/
theorem updateProduct_frame
    (valid : Product → Bool) (db : Db) (id : Nat) (u : ProductPatch) :
    ((findById db id = none →
        updateProduct valid db id u = (notFoundResp "Product not found", db)) ∧
     (∀ p, findById db id = some p → valid (applyPatch u p) = true →
        updateProduct valid db id u =
          ({ status := 200, success := true,
             message := "Product updated successfully",
             data := some (applyPatch u p) },
           db.map (fun q => if q.id == id then applyPatch u q else q)) ∧
        ((u.name = none → (applyPatch u p).name = p.name) ∧
          ∀ v, u.name = some v → (applyPatch u p).name = v) ∧
        ((u.brand = none → (applyPatch u p).brand = p.brand) ∧
          ∀ v, u.brand = some v → (applyPatch u p).brand = v) ∧
        ((u.category = none → (applyPatch u p).category = p.category) ∧
          ∀ v, u.category = some v → (applyPatch u p).category = v) ∧
        ((u.gender = none → (applyPatch u p).gender = p.gender) ∧
          ∀ v, u.gender = some v → (applyPatch u p).gender = v) ∧
        ((u.price = none → (applyPatch u p).price = p.price) ∧
          ∀ v, u.price = some v → (applyPatch u p).price = v) ∧
        ((u.description = none → (applyPatch u p).description = p.description) ∧
          ∀ v, u.description = some v → (applyPatch u p).description = v) ∧
        ((u.isActive = none → (applyPatch u p).isActive = p.isActive) ∧
          ∀ v, u.isActive = some v → (applyPatch u p).isActive = v) ∧
        ((u.isFeatured = none → (applyPatch u p).isFeatured = p.isFeatured) ∧
          ∀ v, u.isFeatured = some v → (applyPatch u p).isFeatured = v) ∧
        ((u.colors = none → (applyPatch u p).colors = p.colors) ∧
          ∀ v, u.colors = some v → (applyPatch u p).colors = v) ∧
        ((u.reviews = none → (applyPatch u p).reviews = p.reviews) ∧
          ∀ v, u.reviews = some v → (applyPatch u p).reviews = v))) := by
  constructor
  · intro h0
    simp [updateProduct, h0]
  · intro p hp hv
    have hu := findByIdAndUpdate_of_found db id (applyPatch u) p hp
    refine ⟨by simp [updateProduct, hp, hv, hu], ?_, ?_, ?_, ?_, ?_, ?_, ?_,
      ?_, ?_, ?_⟩ <;>
      exact ⟨fun h => by simp [applyPatch, h], fun v h => by simp [applyPatch, h]⟩

/-- Witness for C7: patching only the price of the demo product changes
the price to the supplied value and keeps the name. -/
theorem updateProduct_frame_witness :
    updateProduct (fun _ => true) [demoProduct] 1 demoPatch =
      ({ status := 200, success := true,
         message := "Product updated successfully",
         data := some (applyPatch demoPatch demoProduct) },
       [demoProduct].map (fun q => if q.id == 1 then applyPatch demoPatch q else q)) ∧
    (applyPatch demoPatch demoProduct).price = 60 ∧
    (applyPatch demoPatch demoProduct).name = demoProduct.name := by
  have h := (updateProduct_frame (fun _ => true) [demoProduct] 1 demoPatch).2
    demoProduct rfl rfl
  exact ⟨h.1, h.2.2.2.2.2.1.2 60 rfl, h.2.1.1 rfl⟩

/-! ## Claim C1 -/

/-- C1: no product with `isActive = false` ever appears in the data array
of a catalog query, whatever the filter, sort and pagination parameters
and whatever the text index behaviour. -/
theorem getProducts_only_active
    (tmatch : String → Product → Bool) (tscore : Product → Int)
    (db : Db) (qp : QueryParams) :
    ∀ p ∈ (getProducts tmatch tscore db qp).data, p.isActive = true := by
  intro p hp
  have h2 : p ∈ (catalogSorted tmatch tscore db qp).drop
      ((pageNumOf qp.page - 1) * limitNumOf qp.limit).toNat :=
    List.mem_of_mem_take (by simpa [getProducts] using hp)
  have h1 : p ∈ catalogSorted tmatch tscore db qp := List.mem_of_mem_drop h2
  have h3 : p ∈ catalogMatches tmatch db qp := by
    simpa [catalogSorted, List.mem_insertionSort] using h1
  have h4 := (List.mem_filter.mp (by simpa [catalogMatches] using h3)).2
  simp only [matchesQuery, buildQuery, Bool.and_eq_true, beq_iff_eq] at h4
  exact h4.1.1.1.1.1.1

/-- Witness for C1: the demo product is returned by the unfiltered query
and is active. -/
theorem getProducts_only_active_witness :
    demoProduct ∈ (getProducts (fun _ _ => true) (fun _ => 0) [demoProduct]
      QueryParams.empty).data ∧
    demoProduct.isActive = true :=
  ⟨by decide,
   getProducts_only_active (fun _ _ => true) (fun _ => 0) [demoProduct]
     QueryParams.empty demoProduct (by decide)⟩

/-! ## Claim C5 -/

/-- C5: catalog pagination is 1-based with defaults `page = 1` and
`limit = 12` when the parameters are absent; the data array is the sorted
match list with `(page - 1) * limit` documents skipped and at most
`limit` documents taken; `total` counts every document matching the
filters; and for a positive page size the reported `pages` field is the
ceiling of `total / limit`, characterised by
`total ≤ limit * pages < total + limit`. -/
theorem getProducts_pagination
    (tmatch : String → Product → Bool) (tscore : Product → Int)
    (db : Db) (qp : QueryParams) :
    ((getProducts tmatch tscore db qp).page = pageNumOf qp.page) ∧
    (qp.page = none → pageNumOf qp.page = 1) ∧
    (qp.limit = none → limitNumOf qp.limit = 12) ∧
    ((getProducts tmatch tscore db qp).total =
      ((catalogMatches tmatch db qp).length : Int)) ∧
    ((getProducts tmatch tscore db qp).data =
      ((catalogSorted tmatch tscore db qp).drop
        ((pageNumOf qp.page - 1) * limitNumOf qp.limit).toNat).take
        (limitNumOf qp.limit).toNat) ∧
    ((getProducts tmatch tscore db qp).data.length ≤
      (limitNumOf qp.limit).toNat) ∧
    (0 < limitNumOf qp.limit →
      (getProducts tmatch tscore db qp).total ≤
        limitNumOf qp.limit * (getProducts tmatch tscore db qp).pages ∧
      limitNumOf qp.limit * (getProducts tmatch tscore db qp).pages <
        (getProducts tmatch tscore db qp).total + limitNumOf qp.limit) := by
  refine ⟨rfl, ?_, ?_, rfl, rfl, ?_, ?_⟩
  · intro h; simp [pageNumOf, h, jsParseInt, charTrim, JsNum.orDefault]
  · intro h; simp [limitNumOf, h, jsParseInt, charTrim, JsNum.orDefault]
  · simp only [getProducts]
    exact le_trans (le_of_eq (List.length_take ..)) (Nat.min_le_left ..)
  · intro hl
    simpa [getProducts] using
      mathCeilDiv_spec ((catalogMatches tmatch db qp).length : Int)
        (limitNumOf qp.limit) hl

/-- Witness for C5: with two matching products and page size 1, the
second page holds the second document and `pages = 2`; the ceiling bounds
are met at `limit = 1`. -/
theorem getProducts_pagination_witness :
    (getProducts (fun _ _ => true) (fun _ => 0)
      [demoProduct, { demoProduct with id := 2 }]
      { QueryParams.empty with limit := some "1" }).data.length ≤
        (limitNumOf (some "1")).toNat ∧
    ((getProducts (fun _ _ => true) (fun _ => 0)
      [demoProduct, { demoProduct with id := 2 }]
      { QueryParams.empty with limit := some "1" }).total ≤
        limitNumOf (some "1") *
          (getProducts (fun _ _ => true) (fun _ => 0)
            [demoProduct, { demoProduct with id := 2 }]
            { QueryParams.empty with limit := some "1" }).pages) := by
  have h := getProducts_pagination (fun _ _ => true) (fun _ => 0)
    [demoProduct, { demoProduct with id := 2 }]
    { QueryParams.empty with limit := some "1" }
  exact ⟨h.2.2.2.2.2.1, (h.2.2.2.2.2.2 (by decide)).1⟩

/-! ## Claim C8 -/

theorem specLe_total (tscore : Product → Int) (spec : SortSpec)
    (a b : Product) :
    specLe tscore spec a b = true ∨ specLe tscore spec b a = true := by
  induction spec with
  | nil => left; rfl
  | cons kd rest ih =>
      obtain ⟨k, d⟩ := kd
      simp only [specLe]
      by_cases hv : fieldVal tscore k a = fieldVal tscore k b
      · rw [if_pos hv, if_pos hv.symm]
        exact ih
      · have hv2 : ¬ fieldVal tscore k b = fieldVal tscore k a :=
          fun h => hv h.symm
        rw [if_neg hv, if_neg hv2]
        by_cases hd : (0:Int) ≤ d
        · rw [if_pos hd, if_pos hd]
          rcases Int.le_total (fieldVal tscore k a) (fieldVal tscore k b) with h | h
          · left; exact decide_eq_true h
          · right; exact decide_eq_true h
        · rw [if_neg hd, if_neg hd]
          rcases Int.le_total (fieldVal tscore k b) (fieldVal tscore k a) with h | h
          · left; exact decide_eq_true h
          · right; exact decide_eq_true h

theorem specLe_trans (tscore : Product → Int) (spec : SortSpec) :
    ∀ a b c : Product, specLe tscore spec a b = true →
      specLe tscore spec b c = true → specLe tscore spec a c = true := by
  induction spec with
  | nil => intro a b c _ _; rfl
  | cons kd rest ih =>
      obtain ⟨k, d⟩ := kd
      intro a b c hab hbc
      simp only [specLe] at hab hbc ⊢
      by_cases h1 : fieldVal tscore k a = fieldVal tscore k b
      · rw [if_pos h1] at hab
        by_cases h2 : fieldVal tscore k b = fieldVal tscore k c
        · rw [if_pos h2] at hbc
          rw [if_pos (h1.trans h2)]
          exact ih a b c hab hbc
        · rw [if_neg h2] at hbc
          have h3 : ¬ fieldVal tscore k a = fieldVal tscore k c := by
            rw [h1]; exact h2
          rw [if_neg h3, h1]
          exact hbc
      · rw [if_neg h1] at hab
        by_cases h2 : fieldVal tscore k b = fieldVal tscore k c
        · have h3 : ¬ fieldVal tscore k a = fieldVal tscore k c := by
            rw [← h2]; exact h1
          rw [if_neg h3, ← h2]
          exact hab
        · rw [if_neg h2] at hbc
          by_cases hd : (0:Int) ≤ d
          · rw [if_pos hd] at hab hbc
            have ha := of_decide_eq_true hab
            have hb := of_decide_eq_true hbc
            by_cases h3 : fieldVal tscore k a = fieldVal tscore k c
            · exact absurd (by omega) h1
            · rw [if_neg h3, if_pos hd]
              exact decide_eq_true (by omega)
          · rw [if_neg hd] at hab hbc
            have ha := of_decide_eq_true hab
            have hb := of_decide_eq_true hbc
            by_cases h3 : fieldVal tscore k a = fieldVal tscore k c
            · exact absurd (by omega) h1
            · rw [if_neg h3, if_neg hd]
              exact decide_eq_true (by omega)

/-- C8: when both a sort field and a search string are supplied, the
returned data array is ordered with the requested field as primary key
(in the requested direction) and the text-relevance score, descending, as
the tie-breaking secondary key. -/
theorem getProducts_sort_with_search
    (tmatch : String → Product → Bool) (tscore : Product → Int)
    (db : Db) (qp : QueryParams)
    (hs : truthyS qp.sortBy = true) (ht : truthyS qp.search = true) :
    (getProducts tmatch tscore db qp).data.Pairwise (fun a b =>
      (fieldVal tscore (qp.sortBy.getD "") a =
          fieldVal tscore (qp.sortBy.getD "") b → tscore b ≤ tscore a) ∧
      (fieldVal tscore (qp.sortBy.getD "") a ≠
          fieldVal tscore (qp.sortBy.getD "") b →
        if qp.order == some "desc" then
          fieldVal tscore (qp.sortBy.getD "") b ≤
            fieldVal tscore (qp.sortBy.getD "") a
        else
          fieldVal tscore (qp.sortBy.getD "") a ≤
            fieldVal tscore (qp.sortBy.getD "") b)) := by
  have hspec : buildSortSpec qp =
      [(qp.sortBy.getD "", if qp.order == some "desc" then (-1:Int) else 1),
       ("$textScore", -1)] := by
    simp only [buildSortSpec, hs, ht, if_pos]
  haveI hTot : IsTotal Product (specLeR tscore (buildSortSpec qp)) :=
    ⟨fun a b => specLe_total tscore (buildSortSpec qp) a b⟩
  haveI hTrans : IsTrans Product (specLeR tscore (buildSortSpec qp)) :=
    ⟨fun a b c => specLe_trans tscore (buildSortSpec qp) a b c⟩
  have hsorted : (catalogSorted tmatch tscore db qp).Pairwise
      (specLeR tscore (buildSortSpec qp)) :=
    List.sorted_insertionSort (specLeR tscore (buildSortSpec qp))
      (catalogMatches tmatch db qp)
  have hdata : ((getProducts tmatch tscore db qp).data).Sublist
      (catalogSorted tmatch tscore db qp) := by
    simp only [getProducts]
    exact (List.take_sublist _ _).trans (List.drop_sublist _ _)
  refine List.Pairwise.sublist hdata (List.Pairwise.imp ?_ hsorted)
  intro a b hr
  unfold specLeR at hr
  rw [hspec] at hr
  simp only [specLe] at hr
  have hfa : ∀ p : Product, fieldVal tscore "$textScore" p = tscore p :=
    fun p => rfl
  have hneg01 : ¬ ((0:Int) ≤ -1) := by norm_num
  constructor
  · intro heq
    rw [if_pos heq, hfa a, hfa b] at hr
    by_cases hts : tscore a = tscore b
    · exact le_of_eq hts.symm
    · rw [if_neg hts, if_neg hneg01] at hr
      exact of_decide_eq_true hr
  · intro hne
    rw [if_neg hne] at hr
    cases hdesc : (qp.order == some "desc") with
    | true =>
        rw [hdesc] at hr
        have h5 : ¬ ((0:Int) ≤ if true = true then (-1:Int) else 1) := by
          norm_num
        rw [if_neg h5] at hr
        rw [if_pos rfl]
        exact of_decide_eq_true hr
    | false =>
        rw [hdesc] at hr
        have h5 : ((0:Int) ≤ if false = true then (-1:Int) else 1) := by
          norm_num
        rw [if_pos h5] at hr
        have h6 : ¬ (false = true) := by simp
        rw [if_neg h6]
        exact of_decide_eq_true hr

/-- Witness for C8: with an ascending price sort and a search string, the
returned page is pairwise ordered by price with descending relevance as
tie-break. -/
theorem getProducts_sort_with_search_witness :
    (getProducts (fun _ _ => true) (fun p => p.averageRating) sortWitnessDb
      sortWitnessQp).data.Pairwise (fun a b =>
      (fieldVal (fun p => p.averageRating) (sortWitnessQp.sortBy.getD "") a =
          fieldVal (fun p => p.averageRating) (sortWitnessQp.sortBy.getD "") b →
        b.averageRating ≤ a.averageRating) ∧
      (fieldVal (fun p => p.averageRating) (sortWitnessQp.sortBy.getD "") a ≠
          fieldVal (fun p => p.averageRating) (sortWitnessQp.sortBy.getD "") b →
        if sortWitnessQp.order == some "desc" then
          fieldVal (fun p => p.averageRating) (sortWitnessQp.sortBy.getD "") b ≤
            fieldVal (fun p => p.averageRating) (sortWitnessQp.sortBy.getD "") a
        else
          fieldVal (fun p => p.averageRating) (sortWitnessQp.sortBy.getD "") a ≤
            fieldVal (fun p => p.averageRating) (sortWitnessQp.sortBy.getD "") b)) :=
  getProducts_sort_with_search (fun _ _ => true) (fun p => p.averageRating)
    sortWitnessDb sortWitnessQp rfl rfl

/-! ## Claim C6 -/

/-- C6: on a product that contains the addressed color/size pair, two
successive stock adjustments with deltas `d1` and `d2` commute — both
orders leave the collection in the same state, and the final stock count
is the original plus `d1` plus `d2`. -/
theorem updateStock_comm
    (db : Db) (id : Nat) (colorName size : String) (d1 d2 s0 : Int)
    (h : getStockDb db id colorName size = some s0) :
    (updateStock (updateStock db id colorName size d1).2
        id colorName size d2).2 =
      (updateStock (updateStock db id colorName size d2).2
        id colorName size d1).2 ∧
    getStockDb (updateStock (updateStock db id colorName size d1).2
        id colorName size d2).2 id colorName size = some (s0 + d1 + d2) := by
  simp only [getStockDb, getStock, Option.bind_eq_some,
    Option.map_eq_some'] at h
  obtain ⟨p, hp, c, hc, s, hs, hstock⟩ := h
  obtain ⟨ci, hci⟩ := findIdxElem_of_find? _ _ _ hc
  obtain ⟨si, hsi⟩ := findIdxElem_of_find? _ _ _ hs
  have e1 := updateStock_found db id colorName size d1 p ci si c s hp hci hsi
  have e1' := updateStock_found db id colorName size d2 p ci si c s hp hci hsi
  have hp1 := findById_mapUpdate_some db id (incStockAt ci si d1) p
    (fun q => rfl) hp
  have hp1' := findById_mapUpdate_some db id (incStockAt ci si d2) p
    (fun q => rfl) hp
  have hci1 := findIdxElem_modifyIdx (fun c0 => c0.name == colorName)
    (colorInc si d1) (fun _ => rfl) p.colors ci c hci
  have hsi1 := findIdxElem_modifyIdx (fun s0 => s0.size == size)
    (sizeInc d1) (fun _ => rfl) c.sizes si s hsi
  have hci1' := findIdxElem_modifyIdx (fun c0 => c0.name == colorName)
    (colorInc si d2) (fun _ => rfl) p.colors ci c hci
  have hsi1' := findIdxElem_modifyIdx (fun s0 => s0.size == size)
    (sizeInc d2) (fun _ => rfl) c.sizes si s hsi
  have e2 := updateStock_found
    (db.map (fun q => if q.id == id then incStockAt ci si d1 q else q))
    id colorName size d2 (incStockAt ci si d1 p) ci si
    (colorInc si d1 c) (sizeInc d1 s) hp1 hci1 hsi1
  have e2' := updateStock_found
    (db.map (fun q => if q.id == id then incStockAt ci si d2 q else q))
    id colorName size d1 (incStockAt ci si d2 p) ci si
    (colorInc si d2 c) (sizeInc d2 s) hp1' hci1' hsi1'
  constructor
  · simp only [e1, e2, e1', e2']
    rw [mapUpd_mapUpd db id (incStockAt ci si d1) (incStockAt ci si d2)
        (fun q => rfl),
      mapUpd_mapUpd db id (incStockAt ci si d2) (incStockAt ci si d1)
        (fun q => rfl)]
    congr 1
    funext q
    by_cases hq : (q.id == id) = true
    · simp only [if_pos hq]
      exact incStockAt_comm ci si d1 d2 q
    · simp only [if_neg hq]
  · simp only [e1, e2]
    rw [mapUpd_mapUpd db id (incStockAt ci si d1) (incStockAt ci si d2)
        (fun q => rfl)]
    have hfinal := findById_mapUpdate_some db id
      (fun q => incStockAt ci si d2 (incStockAt ci si d1 q)) p
      (fun q => rfl) hp
    have hg := getStock_incStockAt (incStockAt ci si d1 p) colorName size
      ci si (colorInc si d1 c) (sizeInc d1 s) d2 hci1 hsi1
    simp only [getStockDb, hfinal, Option.some_bind]
    rw [hg]
    simp [sizeInc, hstock]

/-- Witness for C6: adjusting Red/9 of the demo product by `-3` then `5`
or `5` then `-3` gives the same collection and the stock `10 - 3 + 5`. -/
theorem updateStock_comm_witness :
    (updateStock (updateStock [demoProduct] 1 "Red" "9" (-3)).2
        1 "Red" "9" 5).2 =
      (updateStock (updateStock [demoProduct] 1 "Red" "9" 5).2
        1 "Red" "9" (-3)).2 ∧
    getStockDb (updateStock (updateStock [demoProduct] 1 "Red" "9" (-3)).2
        1 "Red" "9" 5).2 1 "Red" "9" = some (10 + -3 + 5) :=
  updateStock_comm [demoProduct] 1 "Red" "9" (-3) 5 10 rfl

/-! ## Claim C9 -/

/-- C9: the mutation handlers issue the store's native atomic updates —
`$inc` for stock (`stockWrite`) and `$push` for reviews (`pushReviewOp`)
— and do not read-modify-write the updated field at the application
layer.  Modelling a concurrent pair of requests as two read phases on
the same snapshot followed by the two atomic writes in either order:
both requests' read phases yield the same indices, the two `$inc`
writes commute with both increments surviving, and the two `$push`
writes keep both reviews in either order. -/
theorem atomic_writes_lose_no_updates
    (db : Db) (id : Nat) (colorName size : String) (ci si : Nat)
    (p0 : Product) (c : ColorEntry) (s : SizeEntry) (d1 d2 : Int)
    (hp0 : findById db id = some p0)
    (hci : findIdxElem (fun c0 => c0.name == colorName) p0.colors =
      some (ci, c))
    (hsi : findIdxElem (fun s0 => s0.size == size) c.sizes = some (si, s))
    (pid : Nat) (p : Product) (r1 r2 : Review)
    (hp : findById db pid = some p) :
    (updateStockRead db id colorName size = .found ci si) ∧
    ((stockWrite id ci si d2 (stockWrite id ci si d1 db).2).2 =
      (stockWrite id ci si d1 (stockWrite id ci si d2 db).2).2) ∧
    (getStockDb (stockWrite id ci si d2 (stockWrite id ci si d1 db).2).2
      id colorName size = some (s.stock + d1 + d2)) ∧
    (∃ q, findById (pushReviewOp pid r2
        (pushReviewOp pid r1 db).2).2 pid = some q ∧
      r1 ∈ q.reviews ∧ r2 ∈ q.reviews ∧
      q.reviews.length = p.reviews.length + 2) ∧
    (∃ q, findById (pushReviewOp pid r1
        (pushReviewOp pid r2 db).2).2 pid = some q ∧
      r1 ∈ q.reviews ∧ r2 ∈ q.reviews ∧
      q.reviews.length = p.reviews.length + 2) := by
  have hw1 := findByIdAndUpdate_of_found db id (incStockAt ci si d1) p0 hp0
  have hw1' := findByIdAndUpdate_of_found db id (incStockAt ci si d2) p0 hp0
  have hp1 := findById_mapUpdate_some db id (incStockAt ci si d1) p0
    (fun q => rfl) hp0
  have hp1' := findById_mapUpdate_some db id (incStockAt ci si d2) p0
    (fun q => rfl) hp0
  have hw2 := findByIdAndUpdate_of_found
    (db.map (fun q => if q.id == id then incStockAt ci si d1 q else q)) id
    (incStockAt ci si d2) (incStockAt ci si d1 p0) hp1
  have hw2' := findByIdAndUpdate_of_found
    (db.map (fun q => if q.id == id then incStockAt ci si d2 q else q)) id
    (incStockAt ci si d1) (incStockAt ci si d2 p0) hp1'
  have hci1 := findIdxElem_modifyIdx (fun c0 => c0.name == colorName)
    (colorInc si d1) (fun _ => rfl) p0.colors ci c hci
  have hsi1 := findIdxElem_modifyIdx (fun s0 => s0.size == size)
    (sizeInc d1) (fun _ => rfl) c.sizes si s hsi
  refine ⟨?_, ?_, ?_, ?_, ?_⟩
  · simp [updateStockRead, hp0, hci, hsi]
  · simp only [stockWrite, hw1, hw1', hw2, hw2']
    rw [mapUpd_mapUpd db id (incStockAt ci si d1) (incStockAt ci si d2)
        (fun q => rfl),
      mapUpd_mapUpd db id (incStockAt ci si d2) (incStockAt ci si d1)
        (fun q => rfl)]
    congr 1
    funext q
    by_cases hq : (q.id == id) = true
    · simp only [if_pos hq]
      exact incStockAt_comm ci si d1 d2 q
    · simp only [if_neg hq]
  · simp only [stockWrite, hw1, hw2]
    rw [mapUpd_mapUpd db id (incStockAt ci si d1) (incStockAt ci si d2)
        (fun q => rfl)]
    have hfinal := findById_mapUpdate_some db id
      (fun q => incStockAt ci si d2 (incStockAt ci si d1 q)) p0
      (fun q => rfl) hp0
    have hg := getStock_incStockAt (incStockAt ci si d1 p0) colorName size
      ci si (colorInc si d1 c) (sizeInc d1 s) d2 hci1 hsi1
    simp only [getStockDb, hfinal, Option.some_bind]
    rw [hg]
    simp [sizeInc]
  · have ha1 := findByIdAndUpdate_of_found db pid
      (fun q => { q with reviews := q.reviews ++ [r1] }) p hp
    have hb1 := findById_mapUpdate_some db pid
      (fun q => { q with reviews := q.reviews ++ [r1] }) p (fun q => rfl) hp
    have ha2 := findByIdAndUpdate_of_found
      (db.map (fun q => if q.id == pid then
        { q with reviews := q.reviews ++ [r1] } else q)) pid
      (fun q => { q with reviews := q.reviews ++ [r2] }) _ hb1
    have hb2 := findById_mapUpdate_some
      (db.map (fun q => if q.id == pid then
        { q with reviews := q.reviews ++ [r1] } else q)) pid
      (fun q => { q with reviews := q.reviews ++ [r2] }) _ (fun q => rfl) hb1
    refine ⟨{ p with reviews := (p.reviews ++ [r1]) ++ [r2] },
      ?_, by simp, by simp, by simp⟩
    simp only [pushReviewOp, ha1, ha2]
    exact hb2
  · have ha1 := findByIdAndUpdate_of_found db pid
      (fun q => { q with reviews := q.reviews ++ [r2] }) p hp
    have hb1 := findById_mapUpdate_some db pid
      (fun q => { q with reviews := q.reviews ++ [r2] }) p (fun q => rfl) hp
    have ha2 := findByIdAndUpdate_of_found
      (db.map (fun q => if q.id == pid then
        { q with reviews := q.reviews ++ [r2] } else q)) pid
      (fun q => { q with reviews := q.reviews ++ [r1] }) _ hb1
    have hb2 := findById_mapUpdate_some
      (db.map (fun q => if q.id == pid then
        { q with reviews := q.reviews ++ [r2] } else q)) pid
      (fun q => { q with reviews := q.reviews ++ [r1] }) _ (fun q => rfl) hb1
    refine ⟨{ p with reviews := (p.reviews ++ [r2]) ++ [r1] },
      ?_, by simp, by simp, by simp⟩
    simp only [pushReviewOp, ha1, ha2]
    exact hb2

/-- Witness for C9: on the demo collection, concurrent `-3` and `+5`
stock increments both survive (final stock `10 - 3 + 5`), and two
concurrent review pushes by different users both survive. -/
theorem atomic_writes_lose_no_updates_witness :
    getStockDb (stockWrite 1 0 0 5 (stockWrite 1 0 0 (-3) [demoProduct]).2).2
      1 "Red" "9" = some (10 + -3 + 5) ∧
    (∃ q, findById (pushReviewOp 1 demoReview2
        (pushReviewOp 1 demoReview1 [demoProduct]).2).2 1 = some q ∧
      demoReview1 ∈ q.reviews ∧ demoReview2 ∈ q.reviews ∧
      q.reviews.length = demoProduct.reviews.length + 2) := by
  have h := atomic_writes_lose_no_updates [demoProduct] 1 "Red" "9" 0 0
    demoProduct ⟨"Red", [⟨"9", 10⟩]⟩ ⟨"9", 10⟩ (-3) 5 rfl rfl rfl
    1 demoProduct demoReview1 demoReview2 rfl
  exact ⟨h.2.2.1, h.2.2.2.1⟩

/-! ## Claim C4 -/

theorem getProducts_query_pointwise
    (tmatch : String → Product → Bool) (tscore : Product → Int) (db : Db)
    (qp qp' : QueryParams)
    (hq : ∀ p, matchesQuery tmatch (buildQuery qp) p =
      matchesQuery tmatch (buildQuery qp') p)
    (hs : buildSortSpec qp = buildSortSpec qp')
    (hpn : pageNumOf qp.page = pageNumOf qp'.page)
    (hln : limitNumOf qp.limit = limitNumOf qp'.limit) :
    getProducts tmatch tscore db qp = getProducts tmatch tscore db qp' := by
  have hm : catalogMatches tmatch db qp = catalogMatches tmatch db qp' := by
    simp only [catalogMatches]
    exact List.filter_congr (fun p _ => hq p)
  simp only [getProducts, catalogSorted, hm, hs, hpn, hln]

/-- Counterexample to C4 as stated: a malformed `maxPrice` is not treated
as if the parameter were absent — the `NaN` bound is passed into the
price filter, so the query returns an empty page instead of the result
of the parameter-omitted query. -/
theorem getProducts_malformed_params_counterexample :
    jsNumber "abc" = JsNum.nan ∧
    getProducts (fun _ _ => true) (fun _ => 0) [demoProduct]
        { QueryParams.empty with maxPrice := some "abc" } ≠
      getProducts (fun _ _ => true) (fun _ => 0) [demoProduct]
        QueryParams.empty := by
  decide

/-- C4 (amended): malformed numeric parameters never fail the request.
A malformed `page` or `limit` defaults to `1` resp. `12` and the result
equals the parameter-omitted result; a malformed `minPrice` puts a `NaN`
lower bound in the price filter, which every numeric price satisfies
under the store's BSON ordering, so the result still equals the
parameter-omitted result; but a malformed `maxPrice` puts a `NaN` upper
bound in the filter, which no numeric price satisfies, so the data array
is empty and the total is `0` instead of matching the parameter-omitted
query. -/
theorem getProducts_malformed_params
    (tmatch : String → Product → Bool) (tscore : Product → Int)
    (db : Db) (qp : QueryParams) :
    ((∀ s1, qp.page = some s1 → jsParseInt s1 = .nan →
        getProducts tmatch tscore db qp =
          getProducts tmatch tscore db { qp with page := none }) ∧
     (∀ s1, qp.limit = some s1 → jsParseInt s1 = .nan →
        getProducts tmatch tscore db qp =
          getProducts tmatch tscore db { qp with limit := none }) ∧
     (∀ s1, qp.minPrice = some s1 → jsNumber s1 = .nan →
        getProducts tmatch tscore db qp =
          getProducts tmatch tscore db { qp with minPrice := none }) ∧
     (∀ s1, qp.maxPrice = some s1 → jsNumber s1 = .nan →
        (getProducts tmatch tscore db qp).data = [] ∧
        (getProducts tmatch tscore db qp).total = 0)) := by
  refine ⟨?_, ?_, ?_, ?_⟩
  · intro s1 hs1 hnan
    refine getProducts_query_pointwise tmatch tscore db qp _
      (fun p => rfl) rfl ?_ rfl
    have h0 : (some s1).getD "" = s1 := rfl
    rw [hs1, pageNumOf, h0, hnan]
    rfl
  · intro s1 hs1 hnan
    refine getProducts_query_pointwise tmatch tscore db qp _
      (fun p => rfl) rfl rfl ?_
    have h0 : (some s1).getD "" = s1 := rfl
    rw [hs1, limitNumOf, h0, hnan]
    rfl
  · intro s1 hs1 hnan
    have hne : (s1 != "") = true := by
      rcases eq_or_ne s1 "" with h | h
      · rw [h] at hnan; exact absurd hnan (by decide)
      · simpa using h
    refine getProducts_query_pointwise tmatch tscore db qp _ ?_ rfl rfl rfl
    intro p
    have ht1 : truthyS qp.minPrice = true := by rw [hs1]; exact hne
    have hts : truthyS (some s1) = true := hne
    have ht0 : truthyS (none : Option String) = false := rfl
    by_cases hmx : truthyS qp.maxPrice = true
    · simp [matchesQuery, buildQuery, hs1, ht1, hts, ht0, hmx, hnan, bsonGe]
    · have hmx2 : truthyS qp.maxPrice = false := by simpa using hmx
      simp [matchesQuery, buildQuery, hs1, ht1, hts, ht0, hmx2, hnan, bsonGe]
  · intro s1 hs1 hnan
    have hne : (s1 != "") = true := by
      rcases eq_or_ne s1 "" with h | h
      · rw [h] at hnan; exact absurd hnan (by decide)
      · simpa using h
    have hmatch : ∀ p, matchesQuery tmatch (buildQuery qp) p = false := by
      intro p
      have ht1 : truthyS qp.maxPrice = true := by rw [hs1]; exact hne
      have hts : truthyS (some s1) = true := hne
      simp [matchesQuery, buildQuery, hs1, ht1, hts, hnan, bsonLe]
    have hm : catalogMatches tmatch db qp = [] := by
      simp only [catalogMatches]
      exact List.filter_eq_nil_iff.mpr (fun a _ => by simp [hmatch a])
    constructor
    · simp [getProducts, catalogSorted, hm]
    · simp [getProducts, hm]

/-- Witness for C4 (amended): a malformed page string defaults the page
to 1 with the result unchanged, and a malformed `maxPrice` yields an
empty data array. -/
theorem getProducts_malformed_params_witness :
    getProducts (fun _ _ => true) (fun _ => 0) [demoProduct]
        { QueryParams.empty with page := some "zz" } =
      getProducts (fun _ _ => true) (fun _ => 0) [demoProduct]
        { { QueryParams.empty with page := some "zz" } with page := none } ∧
    (getProducts (fun _ _ => true) (fun _ => 0) [demoProduct]
        { QueryParams.empty with maxPrice := some "abc" }).data = [] := by
  have h1 := (getProducts_malformed_params (fun _ _ => true) (fun _ => 0)
    [demoProduct] { QueryParams.empty with page := some "zz" }).1 "zz" rfl
    (by decide)
  have h2 := (getProducts_malformed_params (fun _ _ => true) (fun _ => 0)
    [demoProduct] { QueryParams.empty with maxPrice := some "abc" }).2.2.2
    "abc" rfl (by decide)
  exact ⟨h1, h2.1⟩

end ShoeStore
